import Mathlib

/-!
Shallow embedding of the attention core of `src/main.py`, a PyTorch
encoder-decoder Transformer.  Tensors are total functions on `Fin`-indexed
shapes with real entries; `nn.Linear` layers are explicit weight matrices
(`y = W x + b`, with `W d e` the entry at output row `d`, input column `e`,
matching PyTorch's `weight[out, in]` layout).  Every definition follows the
source line by line; the single exception, `SelfAttention.energySpec`,
follows the specification's wording of the score computation and exists only
to be compared with the code's `SelfAttention.energy`.
-/

namespace SelfAttention

/-- Flat feature index of the pair `(h, d)`: reshaping `(N, L, H*D)` to
`(N, L, H, D)` (source line 33-35) identifies position `(h, d)` of the
rank-4 view with flat position `h * D + d` of the rank-3 tensor. -/
def splitIdx {H D : ℕ} (h : Fin H) (d : Fin D) : Fin (H * D) :=
  ⟨h.1 * D + d.1, by
    have h1 : h.1 + 1 ≤ H := h.2
    calc h.1 * D + d.1 < h.1 * D + D := by have := d.2; omega
      _ = (h.1 + 1) * D := by ring
      _ ≤ H * D := Nat.mul_le_mul_right D h1⟩

/-- Head component of a flat feature index (first component of the inverse
of the reshape, used by the flattening on source lines 57-59). -/
def headOf {H D : ℕ} (e : Fin (H * D)) : Fin H :=
  ⟨e.1 / D, by
    have h2 := e.2
    have hD : 0 < D := by
      rcases Nat.eq_zero_or_pos D with h0 | h0
      · subst h0; omega
      · exact h0
    exact (Nat.div_lt_iff_lt_mul hD).mpr h2⟩

/-- Per-head feature component of a flat feature index (second component of
the inverse of the reshape, used by the flattening on source lines 57-59). -/
def dimOf {H D : ℕ} (e : Fin (H * D)) : Fin D :=
  ⟨e.1 % D, by
    have h2 := e.2
    have hD : 0 < D := by
      rcases Nat.eq_zero_or_pos D with h0 | h0
      · subst h0; omega
      · exact h0
    exact Nat.mod_lt _ hD⟩

/-- Learned parameters of `SelfAttention` (source lines 17-22): three no-bias
`Linear(head_dim, head_dim)` layers named `values`, `keys`, `queries`, and
the biased output layer `fc_out : Linear(heads*head_dim, embed_size)`. -/
structure Params (H D : ℕ) where
  values : Fin D → Fin D → ℝ
  keys : Fin D → Fin D → ℝ
  queries : Fin D → Fin D → ℝ
  fc_out_weight : Fin (H * D) → Fin (H * D) → ℝ
  fc_out_bias : Fin (H * D) → ℝ

/-- A no-bias `nn.Linear(D, D)` applied to the last dimension:
`y d = Σ e, W d e * x e`. -/
def linearNoBias {D : ℕ} (W : Fin D → Fin D → ℝ) (x : Fin D → ℝ) : Fin D → ℝ :=
  fun d => ∑ e, W d e * x e

/-- The reshape of source lines 33-35: view a `(N, L, H*D)` tensor as
`(N, L, H, D)`. -/
def reshapeHeads {N L H D : ℕ} (x : Fin N → Fin L → Fin (H * D) → ℝ) :
    Fin N → Fin L → Fin H → Fin D → ℝ :=
  fun n l h d => x n l (splitIdx h d)

/-- Source line 38, `values = self.values(values)`: the values projection
applied on the last dimension of the reshaped value tensor. -/
def projValues {N Lv H D : ℕ} (p : Params H D)
    (values : Fin N → Fin Lv → Fin (H * D) → ℝ) :
    Fin N → Fin Lv → Fin H → Fin D → ℝ :=
  fun n l h => linearNoBias p.values (reshapeHeads values n l h)

/-- Source line 39, `keys = self.keys(keys)`: the keys projection applied on
the last dimension of the reshaped key tensor. -/
def projKeys {N Lk H D : ℕ} (p : Params H D)
    (keys : Fin N → Fin Lk → Fin (H * D) → ℝ) :
    Fin N → Fin Lk → Fin H → Fin D → ℝ :=
  fun n l h => linearNoBias p.keys (reshapeHeads keys n l h)

/-- Source line 40, `query = self.queries(queries)`: the queries projection
applied on the last dimension of the reshaped query tensor.  In the source
this value is stored in the local variable `query` and then NEVER READ
AGAIN: the einsum on line 44 contracts the unprojected `queries` instead. -/
def projQueries {N Lq H D : ℕ} (p : Params H D)
    (query : Fin N → Fin Lq → Fin (H * D) → ℝ) :
    Fin N → Fin Lq → Fin H → Fin D → ℝ :=
  fun n l h => linearNoBias p.queries (reshapeHeads query n l h)

/-- Source line 44, `energy = torch.einsum("nqhd,nkhd->nhqk", [queries, keys])`:
the raw attention scores.  Note the first operand is `queries`, the reshaped
but UNPROJECTED query tensor (line 40 stored the projection in `query`,
which is dead), while the second operand is the projected key tensor. -/
def energy {N H D Lq Lk : ℕ} (p : Params H D)
    (keys : Fin N → Fin Lk → Fin (H * D) → ℝ)
    (query : Fin N → Fin Lq → Fin (H * D) → ℝ) :
    Fin N → Fin H → Fin Lq → Fin Lk → ℝ :=
  fun n h q k => ∑ d, reshapeHeads query n q h d * projKeys p keys n k h d

/-- Spec-side score computation, written from the specification's words
(spec section 4.1, steps 2-3): the score contracts the PROJECTED query with
the projected key.  This definition exists only for the refinement
comparison with `energy`, which follows the code. -/
def energySpec {N H D Lq Lk : ℕ} (p : Params H D)
    (keys : Fin N → Fin Lk → Fin (H * D) → ℝ)
    (query : Fin N → Fin Lq → Fin (H * D) → ℝ) :
    Fin N → Fin H → Fin Lq → Fin Lk → ℝ :=
  fun n h q k => ∑ d, projQueries p query n q h d * projKeys p keys n k h d

/-- Source lines 50-51: when a mask is supplied, `masked_fill(mask == 0, -1e20)`
replaces the score with the sentinel `-1e20` wherever the mask is
false/zero and keeps it wherever the mask is nonzero; with `mask = None` the
scores pass through unchanged.  The mask's singleton head dimension
broadcasts over `h`, so the model's mask is indexed by `(n, q, k)`. -/
def applyMask {N H Lq Lk : ℕ}
    (mask : Option (Fin N → Fin Lq → Fin Lk → Bool))
    (en : Fin N → Fin H → Fin Lq → Fin Lk → ℝ) :
    Fin N → Fin H → Fin Lq → Fin Lk → ℝ :=
  match mask with
  | none => en
  | some m => fun n h q k => if m n q k then en n h q k else -(10 ^ 20 : ℝ)

/-- Mathematical softmax along the last (key) dimension of a rank-4 score
tensor, the meaning of `torch.softmax(x, dim=3)` on source line 54. -/
noncomputable def softmax3 {N H Lq Lk : ℕ}
    (x : Fin N → Fin H → Fin Lq → Fin Lk → ℝ) :
    Fin N → Fin H → Fin Lq → Fin Lk → ℝ :=
  fun n h q k => Real.exp (x n h q k) / ∑ j, Real.exp (x n h q j)

/-- Softmax of a single key row, used to state that each attention row
depends only on its own `(n, h, q)` row of scores. -/
noncomputable def softmaxRow {Lk : ℕ} (x : Fin Lk → ℝ) : Fin Lk → ℝ :=
  fun k => Real.exp (x k) / ∑ j, Real.exp (x j)

/-- Source line 54, `attention = torch.softmax(energy / (self.embed_size ** (1/2)), dim=3)`:
the masked scores are divided by the square root of the FULL embedding size
`H * D` (not the per-head dimension `D`) and normalized by softmax along the
key dimension. -/
noncomputable def attention {N H D Lq Lk : ℕ} (p : Params H D)
    (keys : Fin N → Fin Lk → Fin (H * D) → ℝ)
    (query : Fin N → Fin Lq → Fin (H * D) → ℝ)
    (mask : Option (Fin N → Fin Lq → Fin Lk → Bool)) :
    Fin N → Fin H → Fin Lq → Fin Lk → ℝ :=
  softmax3 (fun n h q k =>
    applyMask mask (energy p keys query) n h q k / Real.sqrt ((H * D : ℕ) : ℝ))

/-- Source line 57, `torch.einsum("nhql,nlhd->nqhd", [attention, values])`:
the attention-weighted combination of the projected values, before the
flattening and the output projection.  The shared einsum label `l` forces
`value_len = key_len`, so the value tensor is indexed by `Lk` here; the
checked wrapper `forwardChecked` performs that shape check. -/
noncomputable def outPre {N H D Lq Lk : ℕ} (p : Params H D)
    (values : Fin N → Fin Lk → Fin (H * D) → ℝ)
    (keys : Fin N → Fin Lk → Fin (H * D) → ℝ)
    (query : Fin N → Fin Lq → Fin (H * D) → ℝ)
    (mask : Option (Fin N → Fin Lq → Fin Lk → Bool)) :
    Fin N → Fin Lq → Fin H → Fin D → ℝ :=
  fun n q h d => ∑ k, attention p keys query mask n h q k * projValues p values n k h d

/-- Source lines 57-65: flatten the `(h, d)` pair back to one `E`-sized
dimension (`reshape(N, query_len, heads*head_dim)`) and apply the biased
output layer `fc_out`. -/
noncomputable def forward {N H D Lq Lk : ℕ} (p : Params H D)
    (values : Fin N → Fin Lk → Fin (H * D) → ℝ)
    (keys : Fin N → Fin Lk → Fin (H * D) → ℝ)
    (query : Fin N → Fin Lq → Fin (H * D) → ℝ)
    (mask : Option (Fin N → Fin Lq → Fin Lk → Bool)) :
    Fin N → Fin Lq → Fin (H * D) → ℝ :=
  fun n q e => p.fc_out_bias e +
    ∑ f, p.fc_out_weight e f *
      outPre p values keys query mask n q (headOf f) (dimOf f)

/-- `SelfAttention.forward` with the einsum's shape requirement made
explicit: a value tensor whose length differs from the key length makes the
einsum of source line 57 raise, aborting the call with no partial result
(modelled as `none`); equal lengths produce the full output. -/
noncomputable def forwardChecked {N H D Lv Lk Lq : ℕ} (p : Params H D)
    (values : Fin N → Fin Lv → Fin (H * D) → ℝ)
    (keys : Fin N → Fin Lk → Fin (H * D) → ℝ)
    (query : Fin N → Fin Lq → Fin (H * D) → ℝ)
    (mask : Option (Fin N → Fin Lq → Fin Lk → Bool)) :
    Option (Fin N → Fin Lq → Fin (H * D) → ℝ) :=
  if h : Lv = Lk then
    some (forward p (fun n l => values n (Fin.cast h.symm l)) keys query mask)
  else
    none

/-- Source lines 11-14 of `SelfAttention.__init__`: `head_dim` is the
integer division `embed_size // heads`, and the constructor asserts
`head_dim * heads == embed_size` before any layer is built, so construction
succeeds exactly when this predicate is true. -/
def init_ok (embed_size heads : ℕ) : Bool :=
  decide (embed_size / heads * heads = embed_size)

end SelfAttention

namespace Transformer

/-- Source lines 270-278, `Transformer.make_trg_mask`: the target mask is
`torch.tril(torch.ones((trg_len, trg_len)))` expanded to
`(N, 1, trg_len, trg_len)`.  Entry `(q, k)` of the lower-triangular matrix
of ones is `1` exactly when `k ≤ q`, and `masked_fill(mask == 0, ...)`
treats `1` as keep and `0` as block, so the model returns the boolean
`k ≤ q`.  Only `trg.shape` is read; the token values (type `ℕ` here) are
never consulted. -/
def make_trg_mask {N L : ℕ} (trg : Fin N → Fin L → ℕ) :
    Fin N → Fin 1 → Fin L → Fin L → Bool :=
  fun _ _ q k => decide (k.1 ≤ q.1)

end Transformer

namespace SelfAttention

/-- Concrete one-head, one-feature parameters exhibiting the score bug: the
queries weight is `2`, the keys and values weights are `1`, the output layer
is zero. -/
noncomputable def pC1 : Params 1 1 :=
  ⟨fun _ _ => 1, fun _ _ => 1, fun _ _ => 2, fun _ _ => 0, fun _ => 0⟩

/-- Concrete all-ones rank-3 tensor with one batch, one position, one
feature. -/
noncomputable def tC1 : Fin 1 → Fin 1 → Fin 1 → ℝ := fun _ _ _ => 1

/-- Concrete two-key boolean mask keeping only key position `0`. -/
def mC6 : Fin 1 → Fin 1 → Fin 2 → Bool := fun _ _ k => decide (k.1 = 0)

/-- Concrete two-key score tensor whose entry at key `k` is `k`. -/
noncomputable def eC6 : Fin 1 → Fin 1 → Fin 1 → Fin 2 → ℝ := fun _ _ _ k => (k.1 : ℝ)

/-- Concrete all-zero parameters for the masking witness. -/
noncomputable def pC6 : Params 1 1 :=
  ⟨fun _ _ => 0, fun _ _ => 0, fun _ _ => 0, fun _ _ => 0, fun _ => 0⟩

/-- Concrete all-zero two-position key tensor for the masking witness. -/
noncomputable def kC6 : Fin 1 → Fin 2 → Fin (1 * 1) → ℝ := fun _ _ _ => 0

/-- Concrete all-zero one-position query tensor for the masking witness. -/
noncomputable def qC6 : Fin 1 → Fin 1 → Fin (1 * 1) → ℝ := fun _ _ _ => 0

/-- A sum of exponentials over a nonempty index type is positive. -/
theorem sum_exp_pos {Lk : ℕ} (g : Fin Lk → ℝ) (k0 : Fin Lk) :
    0 < ∑ j, Real.exp (g j) :=
  Finset.sum_pos (fun j _ => Real.exp_pos _) ⟨k0, Finset.mem_univ k0⟩

/-- Each key row of `softmax3` sums to `1`. -/
theorem softmax3_sum_eq_one {N H Lq Lk : ℕ}
    (x : Fin N → Fin H → Fin Lq → Fin Lk → ℝ)
    (n : Fin N) (h : Fin H) (q : Fin Lq) (k0 : Fin Lk) :
    ∑ j, softmax3 x n h q j = 1 := by
  have hpos : 0 < ∑ j, Real.exp (x n h q j) := sum_exp_pos _ k0
  simp only [softmax3]
  rw [← Finset.sum_div]
  exact div_self (ne_of_gt hpos)

/-- Every entry of `softmax3` is strictly positive (over the reals the
exponential never vanishes). -/
theorem softmax3_pos {N H Lq Lk : ℕ}
    (x : Fin N → Fin H → Fin Lq → Fin Lk → ℝ)
    (n : Fin N) (h : Fin H) (q : Fin Lq) (k : Fin Lk) :
    0 < softmax3 x n h q k := by
  have hpos : 0 < ∑ j, Real.exp (x n h q j) := sum_exp_pos _ k
  simp only [softmax3]
  exact div_pos (Real.exp_pos _) hpos

/-- Claim C1 (evidence of the code bug): at a concrete one-head,
one-feature input with queries weight `2` and ones elsewhere, the code's
score `energy` is `1` — the queries projection, computed by line 40 as
`projQueries` and worth `2` here, is never used — while the specified score
`energySpec`, built from the projected query, is `2`. -/
theorem energy_ignores_query_projection :
    energy pC1 tC1 tC1 0 0 0 0 = 1 ∧
    projQueries pC1 tC1 0 0 0 0 = 2 ∧
    energySpec pC1 tC1 tC1 0 0 0 0 = 2 := by
  refine ⟨?_, ?_, ?_⟩ <;>
    simp [energy, energySpec, projQueries, projKeys, linearNoBias, reshapeHeads,
      pC1, tC1, Fin.sum_univ_one]

/-- Claim C4: the output of `SelfAttention.forward` does not depend on the
weights of the `queries` projection layer: two parameter settings that
agree everywhere except possibly on `queries` produce identical outputs on
identical value/key/query/mask inputs, because the projected query stored
on line 40 is dead and line 44 contracts the unprojected query instead. -/
theorem forward_independent_of_queries_weight {N H D Lq Lk : ℕ}
    (wv wk wq1 wq2 : Fin D → Fin D → ℝ)
    (wf : Fin (H * D) → Fin (H * D) → ℝ) (wb : Fin (H * D) → ℝ)
    (values : Fin N → Fin Lk → Fin (H * D) → ℝ)
    (keys : Fin N → Fin Lk → Fin (H * D) → ℝ)
    (query : Fin N → Fin Lq → Fin (H * D) → ℝ)
    (mask : Option (Fin N → Fin Lq → Fin Lk → Bool)) :
    forward ⟨wv, wk, wq1, wf, wb⟩ values keys query mask
      = forward ⟨wv, wk, wq2, wf, wb⟩ values keys query mask := rfl

/-- Claim C5: attention is the softmax, along the key dimension, of the
masked scores scaled by the reciprocal square root of the FULL embedding
size `H * D` (not the per-head dimension `D`); each `(n, h, q)` row is
normalized independently — it equals the row softmax of its own scaled
score row — sums to `1`, and is strictly positive. -/
theorem attention_scaled_softmax_rows {N H D Lq Lk : ℕ} (p : Params H D)
    (keys : Fin N → Fin Lk → Fin (H * D) → ℝ)
    (query : Fin N → Fin Lq → Fin (H * D) → ℝ)
    (mask : Option (Fin N → Fin Lq → Fin Lk → Bool))
    (n : Fin N) (h : Fin H) (q : Fin Lq) (k : Fin Lk) :
    attention p keys query mask n h q k
      = softmaxRow (fun j =>
          applyMask mask (energy p keys query) n h q j
            / Real.sqrt ((H * D : ℕ) : ℝ)) k ∧
    (∑ j, attention p keys query mask n h q j = 1) ∧
    0 < attention p keys query mask n h q k := by
  refine ⟨rfl, ?_, ?_⟩
  · exact softmax3_sum_eq_one _ n h q k
  · exact softmax3_pos _ n h q k

/-- Claim C6: with a mask supplied, every score whose mask entry is
false/zero is replaced by the sentinel `-1e20` and every score whose mask
entry is nonzero is left unchanged; the replacement happens BEFORE the
division by `√(H·D)` that feeds the softmax; with no mask all scores pass
through unchanged. -/
theorem masking_before_scaling {N H D Lq Lk : ℕ} (p : Params H D)
    (keys : Fin N → Fin Lk → Fin (H * D) → ℝ)
    (query : Fin N → Fin Lq → Fin (H * D) → ℝ)
    (m : Fin N → Fin Lq → Fin Lk → Bool)
    (en : Fin N → Fin H → Fin Lq → Fin Lk → ℝ)
    (n : Fin N) (h : Fin H) (q : Fin Lq) (k : Fin Lk) :
    applyMask (none : Option (Fin N → Fin Lq → Fin Lk → Bool)) en = en ∧
    (m n q k = true → applyMask (some m) en n h q k = en n h q k) ∧
    (m n q k = false → applyMask (some m) en n h q k = -(10 ^ 20 : ℝ)) ∧
    attention p keys query (some m)
      = softmax3 (fun n' h' q' k' =>
          applyMask (some m) (energy p keys query) n' h' q' k'
            / Real.sqrt ((H * D : ℕ) : ℝ)) ∧
    attention p keys query none
      = softmax3 (fun n' h' q' k' =>
          energy p keys query n' h' q' k' / Real.sqrt ((H * D : ℕ) : ℝ)) := by
  refine ⟨rfl, ?_, ?_, rfl, rfl⟩
  · intro hm; simp [applyMask, hm]
  · intro hm; simp [applyMask, hm]

/-- Witness for `masking_before_scaling` at a concrete two-key row: key `0`
is kept and keeps its score, key `1` is blocked and becomes the sentinel. -/
theorem masking_before_scaling_witness :
    applyMask (none : Option (Fin 1 → Fin 1 → Fin 2 → Bool)) eC6 = eC6 ∧
    applyMask (some mC6) eC6 0 0 0 0 = eC6 0 0 0 0 ∧
    applyMask (some mC6) eC6 0 0 0 1 = -(10 ^ 20 : ℝ) :=
  ⟨(masking_before_scaling pC6 kC6 qC6 mC6 eC6 0 0 0 0).1,
   (masking_before_scaling pC6 kC6 qC6 mC6 eC6 0 0 0 0).2.1 (by decide),
   (masking_before_scaling pC6 kC6 qC6 mC6 eC6 0 0 0 1).2.2.1 (by decide)⟩

/-- Claim C8: the constructor's divisibility check (source lines 11-14,
executed inside `__init__`, hence before any forward call) rejects
`embed_size = 100, heads = 7` and accepts every configuration in which
`heads` divides `embed_size`. -/
theorem init_divisibility_check :
    init_ok 100 7 = false ∧ ∀ E H : ℕ, H ∣ E → init_ok E H = true := by
  constructor
  · decide
  · intro E H hdvd
    simp [init_ok, Nat.div_mul_cancel hdvd]

/-- Witness for `init_divisibility_check`: the failing configuration named
by the spec and the accepted default configuration
`embed_size = 256, heads = 8`. -/
theorem init_divisibility_check_witness :
    init_ok 100 7 = false ∧ init_ok 256 8 = true :=
  ⟨init_divisibility_check.1, init_divisibility_check.2 256 8 ⟨32, rfl⟩⟩

/-- Claim C9: the checked attention call fails (returns no result at all)
exactly when the value length differs from the key length; when they agree
it returns a full output for EVERY query length, so cross-attention with
`key_len ≠ query_len` is accepted. -/
theorem forward_checked_value_key_len :
    ∀ (N H D Lv Lk Lq : ℕ) (p : Params H D)
      (values : Fin N → Fin Lv → Fin (H * D) → ℝ)
      (keys : Fin N → Fin Lk → Fin (H * D) → ℝ)
      (query : Fin N → Fin Lq → Fin (H * D) → ℝ)
      (mask : Option (Fin N → Fin Lq → Fin Lk → Bool)),
    (forwardChecked p values keys query mask = none ↔ Lv ≠ Lk) ∧
    ((∃ out, forwardChecked p values keys query mask = some out) ↔ Lv = Lk) := by
  intro N H D Lv Lk Lq p values keys query mask
  by_cases hvk : Lv = Lk
  · subst hvk
    obtain ⟨out, hout⟩ :
        ∃ out, forwardChecked p values keys query mask = some out :=
      ⟨_, dif_pos rfl⟩
    constructor
    · rw [hout]; simp
    · simp [hout]
  · have hnone : forwardChecked p values keys query mask = none := dif_neg hvk
    constructor
    · simp [hnone, hvk]
    · simp [hnone, hvk]

/-- Claim C10: for every valid input (value length equal to key length) the
checked forward call succeeds, and its output is a rank-3 tensor indexed
exactly like the query tensor — batch `N`, sequence `Lq`, embedding
`H * D` — for every key/value length `Lk`. -/
theorem forward_output_shape {N H D Lq Lk : ℕ} (p : Params H D)
    (values : Fin N → Fin Lk → Fin (H * D) → ℝ)
    (keys : Fin N → Fin Lk → Fin (H * D) → ℝ)
    (query : Fin N → Fin Lq → Fin (H * D) → ℝ)
    (mask : Option (Fin N → Fin Lq → Fin Lk → Bool)) :
    ∃ out : Fin N → Fin Lq → Fin (H * D) → ℝ,
      forwardChecked p values keys query mask = some out :=
  ⟨_, dif_pos rfl⟩

end SelfAttention

namespace Transformer

/-- Claim C7: `make_trg_mask` on target tokens of shape `(N, L)` is the
lower-triangular mask of shape `(N, 1, L, L)` whose `(q, k)` entry is true
exactly when `k ≤ q`, and it depends only on the shape of the target
tensor: two target tensors of the same shape yield the same mask, so target
padding positions are never masked. -/
theorem make_trg_mask_spec :
    ∀ (N L : ℕ) (trg trg2 : Fin N → Fin L → ℕ) (n : Fin N) (o : Fin 1)
      (q k : Fin L),
    (make_trg_mask trg n o q k = true ↔ k.1 ≤ q.1) ∧
    make_trg_mask trg = make_trg_mask trg2 := by
  intro N L trg trg2 n o q k
  exact ⟨by simp [make_trg_mask], rfl⟩

end Transformer
